import Mathlib

/-!
Verification of the marathon-acme core against its specification.

This file shallowly embeds the relevant parts of the source:

* `marathon_acme/service.py` — domain-label parsing and the reconciler's
  sync pipeline (`parse_domain_label`, `_app_acme_domains`,
  `_apps_acme_domains`, `_filter_new_domains`, `_issue_certs`);
* `marathon_acme/sse_protocol.py` — the SSE line framer
  (`SseProtocol.dataReceived`, `lineReceived`, `_parse_field_value`);
* `marathon_acme/clients/marathon.py` — the multi-endpoint failover
  (`MarathonClient._request`, `get_json_field`);
* `marathon_acme/clients/marathon_lb.py` — the fan-out request
  (`MarathonLbClient.request`, `_check_request_results`);
* `marathon_acme/clients/vault.py` — response normalization
  (`VaultClient._handle_response` / `_handle_error`);
* `marathon_acme/vault_store.py` — the Vault-backed certificate store
  (`sort_pem_objects`, `store`, `_update_live`, `as_dict`).

Python dictionaries are modelled as association lists, JSON values as
structured records (the `json.dumps`/`json.loads` round-trip on live-map
values is the identity in the model), byte strings as `String` with
`String.length` standing for the byte length, and deferred results as
`Except` values (with explicit settle times where the claim speaks about
settling order).
-/

/-! ## Reconciler: domain labels (`marathon_acme/service.py`) -/

/-- Python `str.isspace` on the ASCII whitespace characters recognized by
`str.strip()` with no argument. -/
def pyIsSpace (c : Char) : Bool :=
  c = ' ' ∨ c = '\t' ∨ c = '\n' ∨ c = '\r' ∨ c = '\x0b' ∨ c = '\x0c'

/-- Python `str.strip()`: drop whitespace from both ends. -/
def pyStrip (s : List Char) : List Char :=
  ((s.dropWhile pyIsSpace).reverse.dropWhile pyIsSpace).reverse

/-- Python `str.split(',')`: split at every comma; the result always has
one more entry than the number of commas (so `''.split(',') == ['']`). -/
def pySplitComma (s : List Char) : List (List Char) :=
  match s with
  | [] => [[]]
  | c :: rest =>
    let tail := pySplitComma rest
    if c = ',' then [] :: tail
    else match tail with
      | t :: ts => (c :: t) :: ts
      | [] => [[c]]

/-- Embedding of `parse_domain_label`: split the label on commas, strip
whitespace from each entry and drop empty entries. -/
def parse_domain_label (domain_label : String) : List String :=
  ((pySplitComma domain_label.toList).map (fun p => String.mk (pyStrip p))).filter
    (fun d => d ≠ "")

/-- A Marathon port definition, as far as the reconciler looks at it
(only the count of `portDefinitions` is ever used). -/
structure PortDefinition where
  port : Nat
  protocol : String
deriving Repr, DecidableEq

/-- A Marathon app as consumed by `_app_acme_domains`: its id, its labels
(a JSON object, modelled as an association list) and its port
definitions. -/
structure MarathonApp where
  id : String
  labels : List (String × String)
  portDefinitions : List PortDefinition
deriving Repr, DecidableEq

/-- `labels.get(key)` on the association-list model of a JSON object. -/
def labelsGet (labels : List (String × String)) (key : String) : Option String :=
  (labels.find? (fun p => p.1 = key)).map Prod.snd

/-- `labels.get(key, default)`. -/
def labelsGetD (labels : List (String × String)) (key default : String) : String :=
  (labelsGet labels key).getD default

/-- The effective HAProxy group of port `i` of an app, as computed in
`_app_acme_domains`: `labels.get('HAPROXY_%d_GROUP' % i, app_group)` with
`app_group = labels.get('HAPROXY_GROUP')`. -/
def portGroup (app : MarathonApp) (i : Nat) : Option String :=
  match labelsGet app.labels ("HAPROXY_" ++ toString i ++ "_GROUP") with
  | some g => some g
  | none => labelsGet app.labels "HAPROXY_GROUP"

/-- The raw `MARATHON_ACME_<i>_DOMAIN` label of port `i`, defaulting to
the empty string as in `_app_acme_domains`. -/
def portDomainLabel (app : MarathonApp) (i : Nat) : String :=
  labelsGetD app.labels ("MARATHON_ACME_" ++ toString i ++ "_DOMAIN") ""

/-- Embedding of the loop body of `_app_acme_domains`: for each port
index, when the port's effective group equals the configured group and
the parsed domain label is non-empty, the first parsed domain is
collected. -/
def app_acme_domains (group : String) (app : MarathonApp) : List String :=
  (List.range app.portDefinitions.length).filterMap (fun i =>
    if portGroup app i = some group then
      (parse_domain_label (portDomainLabel app i)).head?
    else
      none)

/-- The port indices of an app for which `_app_acme_domains` logs the
multiple-domains warning: the effective group matches and the parsed
label has more than one entry. -/
def app_acme_warning_ports (group : String) (app : MarathonApp) : List Nat :=
  (List.range app.portDefinitions.length).filter (fun i =>
    portGroup app i = some group ∧
      1 < (parse_domain_label (portDomainLabel app i)).length)

/-- Embedding of `_apps_acme_domains`: concatenate the per-app domain
lists. -/
def apps_acme_domains (group : String) (apps : List MarathonApp) : List String :=
  (apps.map (app_acme_domains group)).flatten

/-- Embedding of `_filter_new_domains`'s `filter_domains`:
`set(marathon_domains) - set(stored_domains.keys())`. -/
def filter_new_domains (marathonDomains storedKeys : List String) : Finset String :=
  marathonDomains.toFinset \ storedKeys.toFinset

/-- The set of domains for which a sync over apps response `apps` and a
store snapshot with keys `storedKeys` requests issuance: the composition
`_apps_acme_domains` then `_filter_new_domains` from `sync`. -/
def syncIssueSet (group : String) (apps : List MarathonApp)
    (storedKeys : List String) : Finset String :=
  filter_new_domains (apps_acme_domains group apps) storedKeys

/-- Modelled from the spec (for the refinement claim C2): `wanted(R)`
collects, per app and per port index, the first entry of the comma-split,
whitespace-trimmed, empty-entries-dropped `MARATHON_ACME_<n>_DOMAIN`
label value, only for ports whose effective group (`HAPROXY_<n>_GROUP`
if set, else `HAPROXY_GROUP`) equals the configured group, with
duplicates collapsed. -/
def wantedSpec (group : String) (apps : List MarathonApp) : Set String :=
  setOf (fun d => ∃ app ∈ apps, ∃ i < app.portDefinitions.length,
    portGroup app i = some group ∧
    (((pySplitComma (portDomainLabel app i).toList).map
        (fun p => String.mk (pyStrip p))).filter (fun s => s ≠ "")).head? = some d)

/-! ## Theorems for claim C2 -/

/-- Characterization of membership in `app_acme_domains`. -/
theorem mem_app_acme_domains (group : String) (app : MarathonApp) (d : String) :
    d ∈ app_acme_domains group app ↔
      ∃ i < app.portDefinitions.length, portGroup app i = some group ∧
        (parse_domain_label (portDomainLabel app i)).head? = some d := by
  simp [app_acme_domains, List.mem_filterMap, List.mem_range]

/-- Claim C2: for every Marathon apps response and store snapshot, the
set of domains for which sync requests issuance equals `wanted(R)` minus
the keys of the snapshot, where `wanted` collects the first entry of the
comma-split, whitespace-trimmed, empty-entries-dropped
`MARATHON_ACME_<n>_DOMAIN` label per port whose effective group equals
the configured group, duplicates collapsed; and the multiple-domain
warning is logged exactly for the matching ports whose parsed label has
more than one entry (only the first entry being used). -/
theorem syncIssueSet_eq_wanted_sdiff (group : String) (apps : List MarathonApp)
    (storedKeys : List String) :
    ((syncIssueSet group apps storedKeys : Finset String) : Set String) =
        wantedSpec group apps \ setOf (fun d => d ∈ storedKeys) ∧
      ∀ app i, i ∈ app_acme_warning_ports group app ↔
        i < app.portDefinitions.length ∧ portGroup app i = some group ∧
          1 < (parse_domain_label (portDomainLabel app i)).length := by
  constructor
  · ext d
    simp only [Finset.mem_coe, syncIssueSet, filter_new_domains, Finset.mem_sdiff,
      List.mem_toFinset, apps_acme_domains, List.mem_flatten, List.mem_map,
      wantedSpec, Set.mem_diff, Set.mem_setOf_eq]
    constructor
    · rintro ⟨⟨l, ⟨app, happ, rfl⟩, hd⟩, hns⟩
      rcases (mem_app_acme_domains group app d).mp hd with ⟨i, hi, hg, hh⟩
      exact ⟨⟨app, happ, i, hi, hg, by simpa [parse_domain_label] using hh⟩, hns⟩
    · rintro ⟨⟨app, happ, i, hi, hg, hh⟩, hns⟩
      refine ⟨⟨app_acme_domains group app, ⟨app, happ, rfl⟩, ?_⟩, hns⟩
      exact (mem_app_acme_domains group app d).mpr
        ⟨i, hi, hg, by simpa [parse_domain_label] using hh⟩
  · intro app i
    simp [app_acme_warning_ports, List.mem_filter, List.mem_range, and_assoc]

/-- Spec scenario 1/4: one app in the configured group with label
`MARATHON_ACME_0_DOMAIN = "example.com, example2.com"` and an empty
store leads to issuance exactly for `example.com`, and the
multiple-domain warning fires for port 0. -/
theorem syncIssueSet_example :
    syncIssueSet "external"
        [{ id := "/my-app_1",
           labels := [("HAPROXY_GROUP", "external"),
                      ("MARATHON_ACME_0_DOMAIN", "example.com, example2.com")],
           portDefinitions := [{ port := 9000, protocol := "tcp" }] }] [] =
      ({"example.com"} : Finset String) ∧
    app_acme_warning_ports "external"
        { id := "/my-app_1",
          labels := [("HAPROXY_GROUP", "external"),
                     ("MARATHON_ACME_0_DOMAIN", "example.com, example2.com")],
          portDefinitions := [{ port := 9000, protocol := "tcp" }] } = [0] := by
  constructor <;> decide

/-! ## SSE line framer (`marathon_acme/sse_protocol.py`) -/

/-- `SseProtocol.MAX_LENGTH`: the source reads
`MAX_LENGTH = 1024 * 1024 * 1024  # 1MiB` — the constant is one GiB while
its own comment (and the spec) say one MiB. -/
def MAX_LENGTH : Nat := 1024 * 1024 * 1024

/-- The observable state of an `SseProtocol` instance: the current event
type and accumulated data lines, the partial-line buffer, whether the
transport has been told to disconnect, the events dispatched to the
handler so far, and whether the line-length-exceeded error was logged.
Bytes are modelled as `Char` lists (`String.length` = byte length for
the ASCII data the protocol handles). -/
structure SseState where
  event : String
  dataLines : List String
  buffer : List Char
  disconnecting : Bool
  dispatched : List (String × String)
  lineLengthError : Bool
deriving Repr, DecidableEq

/-- The state after `__init__`/`_reset_event_data`: event type defaults
to `message`. -/
def initialSseState : SseState :=
  { event := "message", dataLines := [], buffer := [], disconnecting := false,
    dispatched := [], lineLengthError := false }

/-- Embedding of `_parse_field_value`: a line starting with `:` is
ignored (the Python returns `(None, None)`); a line without `:` is the
field with empty value; otherwise the field is everything before the
first `:` and the value everything after it, with one leading space
removed. -/
def parse_field_value (line : String) : Option (String × String) :=
  let cs := line.toList
  if cs.head? = some ':' then none
  else if cs.contains ':' = false then some (line, "")
  else
    let rec splitFirst : List Char → List Char × List Char
      | [] => ([], [])
      | x :: xs =>
        if x = ':' then ([], xs)
        else
          let (a, b) := splitFirst xs
          (x :: a, b)
    let (field, value) := splitFirst cs
    let value := match value with
      | ' ' :: rest => rest
      | v => v
    some (String.mk field, String.mk value)

/-- Embedding of `_handle_field_value`. -/
def handle_field_value (st : SseState) (field value : String) : SseState :=
  if field = "event" then { st with event := value }
  else if field = "data" then { st with dataLines := st.dataLines ++ [value] }
  else if field = "id" then st
  else if field = "retry" then st
  else st

/-- Embedding of `_prepare_data`: `None` when no data lines have
accumulated, else the lines joined by newline. -/
def prepare_data (st : SseState) : Option String :=
  if st.dataLines = [] then none
  else some (String.intercalate "\n" st.dataLines)

/-- Embedding of `_dispatch_event`: call the handler unless the prepared
data is `None`, then reset the event type and data lines. -/
def dispatch_event (st : SseState) : SseState :=
  let st' := match prepare_data st with
    | some data => { st with dispatched := st.dispatched ++ [(st.event, data)] }
    | none => st
  { st' with event := "message", dataLines := [] }

/-- Embedding of `lineReceived`: a blank line dispatches, any other line
is parsed into a field/value pair and handled. -/
def lineReceived (st : SseState) (line : String) : SseState :=
  if line = "" then dispatch_event st
  else match parse_field_value line with
    | none => st
    | some (field, value) => handle_field_value st field value

/-- Embedding of `lineLengthExceeded`: log the error and lose the
connection (`transport.disconnecting` becomes true). -/
def lineLengthExceeded (st : SseState) (_line : List Char) : SseState :=
  { st with lineLengthError := true, disconnecting := true }

/-- The `for line in lines` loop of `dataReceived`: stop on a
disconnecting transport (disregarding the rest of the chunk), treat a
line longer than `MAX_LENGTH` as fatal, otherwise deliver the line. The
boolean records whether the loop returned early. -/
def processLines (st : SseState) : List (List Char) → SseState × Bool
  | [] => (st, false)
  | l :: rest =>
    if st.disconnecting then (st, true)
    else if MAX_LENGTH < l.length then (lineLengthExceeded st l, true)
    else processLines (lineReceived st (String.mk l)) rest

/-- Python `bytes.splitlines()`: split on `\r\n`, `\n` or `\r`, with no
entry for a trailing terminator. -/
def pySplitlines : List Char → List Char → List (List Char)
  | [], acc => if acc = [] then [] else [acc.reverse]
  | '\r' :: '\n' :: rest, acc => acc.reverse :: pySplitlines rest []
  | '\r' :: rest, acc => acc.reverse :: pySplitlines rest []
  | '\n' :: rest, acc => acc.reverse :: pySplitlines rest []
  | c :: rest, acc => pySplitlines rest (c :: acc)

/-- Embedding of `dataReceived`: prepend the buffer, split into lines,
keep an unterminated final line in the buffer, run the line loop and
finally check the buffer against `MAX_LENGTH`. (The Python raises
`IndexError` when both the buffer and the data are empty; that case is
mapped to an empty line list.) -/
def dataReceived (st : SseState) (data : List Char) : SseState :=
  let lines := pySplitlines (st.buffer ++ data) []
  let endsNl := match data.getLast? with
    | some '\n' => true
    | some '\r' => true
    | _ => false
  let (buffer, procLines) :=
    if endsNl then (([] : List Char), lines)
    else match lines.getLast? with
      | some last => (last, lines.dropLast)
      | none => ([], [])
  let st := { st with buffer := buffer }
  let (st, early) := processLines st procLines
  if early then st
  else if MAX_LENGTH < buffer.length then lineLengthExceeded st buffer
  else st

example : pySplitlines "ev\r\ndata\rx".toList [] =
    ["ev".toList, "data".toList, "x".toList] := by decide

/-! ## Theorems for claims C5 and C6 -/

/-- `lineReceived` never touches the line-length error flag. -/
theorem lineReceived_lineLengthError (st : SseState) (line : String) :
    (lineReceived st line).lineLengthError = st.lineLengthError := by
  unfold lineReceived dispatch_event handle_field_value prepare_data
  repeat' split
  all_goals rfl

/-- Claim C5 (code bug): the source sets
`MAX_LENGTH = 1024 * 1024 * 1024` with the comment `# 1MiB`, so the
effective maximum line length is one GiB, not the documented one MiB: a
line of `1024 * 1024 + 1` bytes — longer than 1 MiB — is handed to
`lineReceived` as an ordinary line instead of triggering
`lineLengthExceeded`, and no line-length error is surfaced. -/
theorem sse_max_length_is_one_gib :
    MAX_LENGTH = 1024 * 1024 * 1024 ∧
    1024 * 1024 < (List.replicate (1024 * 1024 + 1) 'a').length ∧
    processLines initialSseState [List.replicate (1024 * 1024 + 1) 'a'] =
      (lineReceived initialSseState
        (String.mk (List.replicate (1024 * 1024 + 1) 'a')), false) ∧
    (processLines initialSseState
        [List.replicate (1024 * 1024 + 1) 'a']).1.lineLengthError = false := by
  have hlen : ¬ MAX_LENGTH < (List.replicate (1024 * 1024 + 1) 'a').length := by
    rw [List.length_replicate, MAX_LENGTH]
    norm_num
  have hproc : processLines initialSseState [List.replicate (1024 * 1024 + 1) 'a'] =
      (lineReceived initialSseState
        (String.mk (List.replicate (1024 * 1024 + 1) 'a')), false) := by
    show (if initialSseState.disconnecting then (initialSseState, true)
      else if MAX_LENGTH < (List.replicate (1024 * 1024 + 1) 'a').length then
        (lineLengthExceeded initialSseState (List.replicate (1024 * 1024 + 1) 'a'), true)
      else processLines (lineReceived initialSseState
        (String.mk (List.replicate (1024 * 1024 + 1) 'a'))) []) = _
    rw [if_neg (by decide : ¬ (initialSseState.disconnecting = true)), if_neg hlen]
    rfl
  refine ⟨rfl, ?_, hproc, ?_⟩
  · rw [List.length_replicate]
    norm_num
  · rw [hproc]
    rw [lineReceived_lineLengthError]
    rfl

/-- Claim C6: for complete lines delivered to the framer — an `event:`
line sets the next event's type (default `message`); each `data:` line
appends its value to the accumulation; `id:`, `retry:` and
comment (`:`-prefixed) lines are ignored; a blank line dispatches
exactly one event whose data is the accumulated lines joined by newline
and resets the type to `message`; a blank line with an empty
accumulation dispatches nothing. -/
theorem sse_lineReceived_spec (st : SseState) (line : String) :
    initialSseState.event = "message" ∧
    (∀ v, parse_field_value line = some ("event", v) →
      lineReceived st line = { st with event := v }) ∧
    (∀ v, parse_field_value line = some ("data", v) →
      lineReceived st line = { st with dataLines := st.dataLines ++ [v] }) ∧
    (∀ v, parse_field_value line = some ("id", v) → lineReceived st line = st) ∧
    (∀ v, parse_field_value line = some ("retry", v) → lineReceived st line = st) ∧
    (line.toList.head? = some ':' → lineReceived st line = st) ∧
    (line = "" → st.dataLines ≠ [] →
      lineReceived st line =
        { st with
            dispatched := st.dispatched ++
              [(st.event, String.intercalate "\n" st.dataLines)],
            event := "message", dataLines := [] }) ∧
    (line = "" → st.dataLines = [] →
      lineReceived st line = { st with event := "message", dataLines := [] }) := by
  have hblank : parse_field_value "" = some ("", "") := by decide
  refine ⟨rfl, ?_, ?_, ?_, ?_, ?_, ?_, ?_⟩
  · intro v h
    have hne : line ≠ "" := by
      intro he; rw [he, hblank] at h; simp at h
    simp [lineReceived, hne, h, handle_field_value]
  · intro v h
    have hne : line ≠ "" := by
      intro he; rw [he, hblank] at h; simp at h
    simp [lineReceived, hne, h, handle_field_value]
  · intro v h
    have hne : line ≠ "" := by
      intro he; rw [he, hblank] at h; simp at h
    simp [lineReceived, hne, h, handle_field_value]
  · intro v h
    have hne : line ≠ "" := by
      intro he; rw [he, hblank] at h; simp at h
    simp [lineReceived, hne, h, handle_field_value]
  · intro h
    have hne : line ≠ "" := by
      intro he; rw [he] at h; simp at h
    have hp : parse_field_value line = none := by
      unfold parse_field_value
      exact if_pos h
    simp [lineReceived, hne, hp]
  · intro he hd
    simp [lineReceived, he, dispatch_event, prepare_data, hd]
  · intro he hd
    simp [lineReceived, he, dispatch_event, prepare_data, hd]

/-- Witness for claim C6's theorem at a concrete state and line: a
`data:` line appends its (space-stripped) value. -/
theorem sse_lineReceived_spec_witness :
    lineReceived
        { event := "message", dataLines := ["d1"], buffer := [],
          disconnecting := false, dispatched := [], lineLengthError := false }
        "data: d2" =
      { event := "message", dataLines := ["d1", "d2"], buffer := [],
        disconnecting := false, dispatched := [], lineLengthError := false } :=
  (sse_lineReceived_spec
    { event := "message", dataLines := ["d1"], buffer := [],
      disconnecting := false, dispatched := [], lineLengthError := false }
    "data: d2").2.2.1 "d2" (by decide)

/-! ## Marathon client failover (`marathon_acme/clients/marathon.py`,
`_base.py`) -/

/-- An HTTP response as seen by the Marathon client: status code, the
`Content-Type` header (if any) and the JSON body as a field/value
association list (field values kept opaque as strings). -/
structure MarathonResponse where
  code : Nat
  contentType : Option String
  jsonFields : List (String × String)
deriving Repr, DecidableEq

/-- The outcome of one endpoint's `HTTPClient.request`: an HTTP response
of any status is a success (treq only errbacks on transport errors). -/
def EndpointOutcome : Type := Except String MarathonResponse

/-- Embedding of `MarathonClient._request`: try each endpoint in order;
any response ends the recursion, a transport error carries on to the
next endpoint; with no endpoints left, the last failure is returned. The
endpoint list is modelled by the list of outcomes each endpoint would
produce. -/
def marathon_client_request_aux (failure : Except String MarathonResponse) :
    List (Except String MarathonResponse) → Except String MarathonResponse
  | [] => failure
  | outcome :: rest =>
    match outcome with
    | .ok r => .ok r
    | .error e => marathon_client_request_aux (.error e) rest

/-- Embedding of `MarathonClient.request`: start the recursion with the
initial `failure=None` (an impossible placeholder failure, returned only
when the endpoint list is empty). -/
def marathon_client_request
    (outcomes : List (Except String MarathonResponse)) :
    Except String MarathonResponse :=
  marathon_client_request_aux (.error "no endpoints") outcomes

/-- Embedding of `raise_for_status` from `clients/_base.py`: 4xx and 5xx
raise `HTTPError`, everything else passes through. -/
def raise_for_status (r : MarathonResponse) : Except String MarathonResponse :=
  if 400 ≤ r.code ∧ r.code < 500 then
    .error ("HTTPError: " ++ toString r.code ++ " Client Error")
  else if 500 ≤ r.code ∧ r.code < 600 then
    .error ("HTTPError: " ++ toString r.code ++ " Server Error")
  else .ok r

/-- Embedding of `raise_for_header` for the `Content-Type` header. -/
def raise_for_content_type (r : MarathonResponse) (expected : String) :
    Except String MarathonResponse :=
  match r.contentType with
  | none => .error "HTTPError: header not found"
  | some h => if h = expected then .ok r else .error "HTTPError: wrong header"

/-- Embedding of `MarathonClient.get_json_field`: failover request, then
status check, content-type check, JSON decoding and field lookup. -/
def get_json_field (outcomes : List (Except String MarathonResponse))
    (field : String) : Except String String :=
  match marathon_client_request outcomes with
  | .error e => .error e
  | .ok r =>
    match raise_for_status r with
    | .error e => .error e
    | .ok r =>
      match raise_for_content_type r "application/json" with
      | .error e => .error e
      | .ok r =>
        match labelsGet r.jsonFields field with
        | some v => .ok v
        | none => .error ("KeyError: " ++ field)

/-! ## Theorems for claim C4 -/

/-- Counterexample to claim C4: with two endpoints where the first
returns a 500 response and the second a healthy JSON response, the
client does NOT fail over — the 500 response ends the endpoint
recursion (failover happens only on transport errors), and
`get_json_field` then fails with the 500 status error instead of
returning the second endpoint's answer. -/
theorem marathon_no_failover_on_5xx :
    marathon_client_request
        [.ok { code := 500, contentType := some "application/json",
               jsonFields := [("apps", "[]")] },
         .ok { code := 200, contentType := some "application/json",
               jsonFields := [("apps", "[]")] }] =
      .ok { code := 500, contentType := some "application/json",
            jsonFields := [("apps", "[]")] } ∧
    get_json_field
        [.ok { code := 500, contentType := some "application/json",
               jsonFields := [("apps", "[]")] },
         .ok { code := 200, contentType := some "application/json",
               jsonFields := [("apps", "[]")] }] "apps" =
      .error "HTTPError: 500 Server Error" := by
  constructor <;> rfl

/-- The endpoint recursion returns the first success whatever failure has
accumulated so far. -/
theorem marathon_request_aux_first_ok
    (pre rest : List (Except String MarathonResponse)) (r : MarathonResponse) :
    (∀ o ∈ pre, ∃ msg, o = .error msg) →
    ∀ f, marathon_client_request_aux f (pre ++ .ok r :: rest) = .ok r := by
  induction pre with
  | nil => intro _ f; rfl
  | cons o t ih =>
    intro hpre f
    rcases hpre o (by simp) with ⟨msg, rfl⟩
    exact ih (fun o ho => hpre o (by simp [ho])) (.error msg)

/-- When every endpoint fails, the endpoint recursion returns the last
endpoint's failure. -/
theorem marathon_request_aux_all_failed
    (pre : List (Except String MarathonResponse)) (e : String) :
    (∀ o ∈ pre, ∃ msg, o = .error msg) → pre.getLast? = some (.error e) →
    ∀ f, marathon_client_request_aux f pre = .error e := by
  induction pre with
  | nil => intro _ hlast; simp at hlast
  | cons o t ih =>
    intro hpre hlast f
    rcases hpre o (by simp) with ⟨msg, rfl⟩
    cases t with
    | nil =>
      simp at hlast
      simp [marathon_client_request_aux, hlast]
    | cons o2 t2 =>
      have hlast2 : (o2 :: t2).getLast? = some (.error e) := by
        simpa using hlast
      exact ih (fun o ho => hpre o (by simp [ho])) hlast2 (.error msg)

/-- Claim C4 as amended: endpoints are tried in their configured order
and the first endpoint that yields any HTTP response — 2xx, 4xx or 5xx
alike — ends the failover with that response; failover to the next
endpoint happens only on transport error; when every endpoint fails
with a transport error, the last endpoint's failure propagates (after
an all-endpoints-failed message is logged). -/
theorem marathon_failover_amended
    (pre rest : List (Except String MarathonResponse))
    (r : MarathonResponse) (e : String) :
    ((∀ o ∈ pre, ∃ msg, o = .error msg) →
      marathon_client_request (pre ++ .ok r :: rest) = .ok r) ∧
    ((∀ o ∈ pre, ∃ msg, o = .error msg) →
      pre.getLast? = some (.error e) →
        marathon_client_request pre = .error e) := by
  constructor
  · intro hpre
    exact marathon_request_aux_first_ok pre rest r hpre _
  · intro hpre hlast
    exact marathon_request_aux_all_failed pre e hpre hlast _

/-- Witness for the amended C4 theorem: one transport failure, then a
200 response — the response is returned; and a single transport-failing
endpoint propagates its own error. -/
theorem marathon_failover_amended_witness :
    marathon_client_request
        [.error "connection refused",
         .ok { code := 200, contentType := some "application/json",
               jsonFields := [("apps", "[]")] }] =
      .ok { code := 200, contentType := some "application/json",
            jsonFields := [("apps", "[]")] } ∧
    marathon_client_request [.error "connection refused"] =
      .error "connection refused" := by
  constructor
  · exact (marathon_failover_amended [.error "connection refused"] []
      { code := 200, contentType := some "application/json",
        jsonFields := [("apps", "[]")] } "connection refused").1
      (by intro o ho; simp at ho; exact ⟨"connection refused", ho⟩)
  · exact (marathon_failover_amended [.error "connection refused"] []
      { code := 200, contentType := some "application/json",
        jsonFields := [("apps", "[]")] } "connection refused").2
      (by intro o ho; simp at ho; exact ⟨"connection refused", ho⟩)
      (by simp)

/-! ## marathon-lb client (`marathon_acme/clients/marathon_lb.py`) -/

/-- What one marathon-lb endpoint does with the fanned-out request:
deliver an HTTP response with some status code, or fail at the transport
level. -/
inductive LbOutcome where
  | response (code : Nat)
  | transportError (e : String)
deriving Repr, DecidableEq

/-- A marathon-lb response (only the status code is relevant here). -/
structure LbResponse where
  code : Nat
deriving Repr, DecidableEq

/-- Embedding of `MarathonLbClient._request`: the per-endpoint request
followed by `raise_for_status` — 4xx and 5xx responses become failures,
as do transport errors. -/
def mlb_endpoint_result (o : LbOutcome) : Except String LbResponse :=
  match o with
  | .transportError e => .error e
  | .response c =>
    if 400 ≤ c ∧ c < 500 then
      .error ("HTTPError: " ++ toString c ++ " Client Error")
    else if 500 ≤ c ∧ c < 600 then
      .error ("HTTPError: " ++ toString c ++ " Server Error")
    else .ok { code := c }

/-- The `success` flag of a `DeferredList` result tuple, inverted: true
when this endpoint's request failed. -/
def exceptIsError (r : Except String LbResponse) : Bool :=
  match r with
  | .error _ => true
  | .ok _ => false

/-- The response recorded for one endpoint in `_check_request_results`:
the result on success, `None` on failure. -/
def exceptToOption (r : Except String LbResponse) : Option LbResponse :=
  match r with
  | .ok x => some x
  | .error _ => none

/-- Embedding of `MarathonLbClient._check_request_results`: collect a
response per endpoint position (`None` for failures, which are logged
with the endpoint identity) and raise a single error when every
endpoint failed. -/
def check_request_results (results : List (Except String LbResponse)) :
    Except String (List (Option LbResponse)) :=
  let responses := results.map exceptToOption
  let failed := results.filter exceptIsError
  if failed.length = results.length then
    .error "Failed to make a request to all marathon-lb instances"
  else .ok responses

/-- Embedding of `MarathonLbClient.request` (used by both `signal_hup`
and `signal_usr1`): fan out to every endpoint, gather all results in
endpoint order, then classify them. -/
def marathon_lb_request (outcomes : List LbOutcome) :
    Except String (List (Option LbResponse)) :=
  check_request_results (outcomes.map mlb_endpoint_result)

/-! ## Theorems for claim C8 -/

/-- An endpoint outcome counts as failed (per the code) when it is a
transport error or a 4xx/5xx response. -/
def lbFailed (o : LbOutcome) : Bool :=
  match o with
  | .transportError _ => true
  | .response c => decide (400 ≤ c ∧ c < 600)

/-- Counterexample to claim C8: a `304` response is non-2xx, so by the
claim a single endpoint answering `304` means every endpoint failed and
the call must raise the all-endpoints-failed error — but the code treats
any response outside 400..599 as a success and returns it in the result
list. -/
theorem marathon_lb_304_counterexample :
    ¬ (200 ≤ 304 ∧ 304 < 300) ∧
    marathon_lb_request [.response 304] = .ok [some { code := 304 }] := by
  exact ⟨by decide, rfl⟩

/-- The per-endpoint result is an error exactly when the outcome is
classified as failed. -/
theorem exceptIsError_mlb_endpoint_result (o : LbOutcome) :
    exceptIsError (mlb_endpoint_result o) = lbFailed o := by
  cases o with
  | transportError e => rfl
  | response c =>
    simp only [mlb_endpoint_result, lbFailed]
    split_ifs with h1 h2
    · exact (decide_eq_true (by omega)).symm
    · exact (decide_eq_true (by omega)).symm
    · exact (decide_eq_false (by omega)).symm

/-- Claim C8 as amended: every marathon-lb request is fanned out to all
endpoints; a failure is a 4xx/5xx response or a transport error (other
responses, e.g. 3xx, count as successes); if every endpoint fails the
call raises a single all-endpoints-failed error, and otherwise it
returns a list in endpoint order with the response at each successful
position and `None` at each failed position (each failure being logged
with its endpoint identity). -/
theorem marathon_lb_request_amended (outcomes : List LbOutcome) :
    ((∀ o ∈ outcomes, lbFailed o = true) →
      marathon_lb_request outcomes =
        .error "Failed to make a request to all marathon-lb instances") ∧
    ((∃ o ∈ outcomes, lbFailed o = false) →
      marathon_lb_request outcomes =
        .ok (outcomes.map (fun o => match o with
          | .transportError _ => none
          | .response c =>
            if 400 ≤ c ∧ c < 600 then none else some { code := c }))) := by
  have hfe : ∀ r ∈ outcomes.map mlb_endpoint_result, ∃ o ∈ outcomes,
      r = mlb_endpoint_result o := by
    intro r hr
    rcases List.mem_map.mp hr with ⟨o, ho, rfl⟩
    exact ⟨o, ho, rfl⟩
  constructor
  · intro hall
    unfold marathon_lb_request check_request_results
    rw [if_pos]
    have hself : (outcomes.map mlb_endpoint_result).filter exceptIsError =
        outcomes.map mlb_endpoint_result := by
      rw [List.filter_eq_self]
      intro r hr
      rcases hfe r hr with ⟨o, ho, rfl⟩
      rw [exceptIsError_mlb_endpoint_result]
      exact hall o ho
    rw [hself]
  · rintro ⟨o₀, ho₀, hfail⟩
    unfold marathon_lb_request check_request_results
    rw [if_neg]
    · congr 1
      rw [List.map_map]
      refine List.map_congr_left (fun o _ => ?_)
      cases o with
      | transportError e => rfl
      | response c =>
        simp only [Function.comp_apply, mlb_endpoint_result, exceptToOption]
        split_ifs with h1 h2 h3 h4 h5 <;> first | rfl | omega
    · intro hlen
      have hall : ∀ r ∈ outcomes.map mlb_endpoint_result, exceptIsError r := by
        have := List.countP_eq_length.mp (by
          rw [List.countP_eq_length_filter]
          exact hlen)
        exact this
      have := hall (mlb_endpoint_result o₀) (List.mem_map_of_mem _ ho₀)
      rw [exceptIsError_mlb_endpoint_result, hfail] at this
      exact Bool.false_ne_true this

/-- Witness for the amended C8 theorem: both branches at concrete
endpoint outcomes — two transport failures raise the single error; a
transport failure next to a 200 response yields `[None, response]`. -/
theorem marathon_lb_request_amended_witness :
    marathon_lb_request [.transportError "refused", .transportError "timeout"] =
      .error "Failed to make a request to all marathon-lb instances" ∧
    marathon_lb_request [.transportError "refused", .response 200] =
      .ok [none, some { code := 200 }] := by
  constructor
  · exact (marathon_lb_request_amended
      [.transportError "refused", .transportError "timeout"]).1
      (by intro o ho; fin_cases ho <;> rfl)
  · have h := (marathon_lb_request_amended
      [.transportError "refused", .response 200]).2
      ⟨.response 200, by simp, by decide⟩
    simpa using h

/-! ## Reconciler issuance (`MarathonAcme._issue_certs`) -/

instance exceptDecEq {ε α : Type} [DecidableEq ε] [DecidableEq α] :
    DecidableEq (Except ε α)
  | .error e, .error f =>
    if h : e = f then .isTrue (by rw [h]) else .isFalse (by simp [h])
  | .error _, .ok _ => .isFalse (by simp)
  | .ok _, .error _ => .isFalse (by simp)
  | .ok a, .ok b =>
    if h : a = b then .isTrue (by rw [h]) else .isFalse (by simp [h])

/-- One per-domain issuance deferred as `_issue_certs` sees it: the
domain, the (reactor) time at which the deferred settles, and its
outcome. -/
structure Issuance where
  domain : String
  settleTime : Nat
  outcome : Except String String
deriving Repr, DecidableEq

/-- Whether the issuance deferred settles with a failure. -/
def issuanceFailed (d : Issuance) : Bool :=
  match d.outcome with
  | .error _ => true
  | .ok _ => false

/-- The failure message of a failed issuance. -/
def issuanceError (d : Issuance) : String :=
  match d.outcome with
  | .error e => e
  | .ok r => r

/-- The success value of a successful issuance. -/
def issuanceValue (d : Issuance) : String :=
  match d.outcome with
  | .ok r => r
  | .error e => e

/-- One step of the earliest-settling fold: keep whichever of the
accumulator and the next issuance settles first (ties favour the
earlier list position). -/
def earliestStep (acc : Option Issuance) (d : Issuance) : Option Issuance :=
  match acc with
  | none => some d
  | some b => if d.settleTime < b.settleTime then some d else some b

/-- The issuance whose failure settles first in time (ties broken by
list position): the deferred whose errback fires the
`fireOnOneErrback` DeferredList underlying `gatherResults`. -/
def firstFailure (ds : List Issuance) : Option Issuance :=
  (ds.filter issuanceFailed).foldl earliestStep none

/-- The deferred `_issue_certs` returns: when it fires and with what. -/
structure GatherOutcome where
  fireTime : Nat
  result : Except String (List String)
deriving Repr, DecidableEq

/-- Embedding of `twisted.internet.defer.gatherResults` as used by
`_issue_certs` — without `consumeErrors`, so the underlying
`DeferredList(fireOnOneErrback=True)` fires with the FIRST failure as
soon as it settles, and only when no constituent fails does it fire
with the list of results after all have settled. -/
def gatherResults (ds : List Issuance) : GatherOutcome :=
  match firstFailure ds with
  | some f => { fireTime := f.settleTime, result := .error (issuanceError f) }
  | none =>
    { fireTime := (ds.map (fun d => d.settleTime)).foldr max 0,
      result := .ok (ds.map issuanceValue) }

/-- The issuance deferreds that `_issue_certs` cancels: none —
`gatherResults` does not cancel the remaining deferreds when one fails,
and `_issue_certs` contains no cancellation call. -/
def issue_certs_cancelled (_ds : List Issuance) : List Issuance := []

/-! ## Theorems for claim C3 -/

/-- The concrete issuance trace refuting claim C3: two failing domains
(settling at times 0 and 3) and one succeeding domain (settling at
time 5). -/
def c3Issuances : List Issuance :=
  [{ domain := "a.example.com", settleTime := 0, outcome := .error "acme failure A" },
   { domain := "b.example.com", settleTime := 3, outcome := .error "acme failure B" },
   { domain := "c.example.com", settleTime := 5, outcome := .ok "cert-c" }]

/-- Counterexample to claim C3: with a failure settling at time 0 and a
success settling at time 5, `_issue_certs`'s deferred fires at time 0 —
before all issuances have settled — and its result carries only the
first failure, not an accumulation of every per-domain failure (the
second failure's message is lost). -/
theorem issue_certs_counterexample :
    (gatherResults c3Issuances).fireTime = 0 ∧
    (∃ d ∈ c3Issuances, (gatherResults c3Issuances).fireTime < d.settleTime) ∧
    (gatherResults c3Issuances).result = .error "acme failure A" := by
  refine ⟨by decide, ?_, by decide⟩
  refine ⟨{ domain := "c.example.com", settleTime := 5, outcome := .ok "cert-c" },
    by decide, by decide⟩

/-- Every member of a list is bounded by the `foldr max 0` of the
list. -/
theorem le_foldr_max (l : List Nat) : ∀ x ∈ l, x ≤ l.foldr max 0 := by
  induction l with
  | nil => intro x hx; simp at hx
  | cons a t ih =>
    intro x hx
    rcases List.mem_cons.mp hx with rfl | hx
    · exact le_max_left _ _
    · exact le_trans (ih x hx) (le_max_right _ _)

/-- The earliest-failure fold returns either the accumulator or a list
member, minimal in settle time among both. -/
theorem firstFailure_fold_spec (l : List Issuance) :
    ∀ acc r, l.foldl earliestStep acc = some r →
      (acc = some r ∨ r ∈ l) ∧
      (∀ d ∈ l, r.settleTime ≤ d.settleTime) ∧
      (∀ b, acc = some b → r.settleTime ≤ b.settleTime) := by
  induction l with
  | nil =>
    intro acc r h
    simp only [List.foldl_nil] at h
    exact ⟨Or.inl h, by simp, fun b hb => by rw [h] at hb; cases hb; exact le_refl _⟩
  | cons a t ih =>
    intro acc r h
    simp only [List.foldl_cons] at h
    cases acc with
    | none =>
      have h' : t.foldl earliestStep (some a) = some r := h
      rcases ih (some a) r h' with ⟨hmem, hmin, hacc⟩
      have hra : r.settleTime ≤ a.settleTime := hacc a rfl
      refine ⟨?_, ?_, ?_⟩
      · rcases hmem with ha | ht
        · exact Or.inr (by cases ha; exact List.mem_cons_self _ _)
        · exact Or.inr (List.mem_cons_of_mem _ ht)
      · intro d hd
        rcases List.mem_cons.mp hd with rfl | hd
        · exact hra
        · exact hmin d hd
      · intro b hb; cases hb
    | some b =>
      rw [show earliestStep (some b) a =
        if a.settleTime < b.settleTime then some a else some b from rfl] at h
      by_cases hlt : a.settleTime < b.settleTime
      · rw [if_pos hlt] at h
        rcases ih (some a) r h with ⟨hmem, hmin, hacc⟩
        have hra : r.settleTime ≤ a.settleTime := hacc a rfl
        refine ⟨?_, ?_, ?_⟩
        · rcases hmem with ha | ht
          · exact Or.inr (by cases ha; exact List.mem_cons_self _ _)
          · exact Or.inr (List.mem_cons_of_mem _ ht)
        · intro d hd
          rcases List.mem_cons.mp hd with rfl | hd
          · exact hra
          · exact hmin d hd
        · intro b' hb'
          cases hb'
          exact le_trans hra (le_of_lt hlt)
      · rw [if_neg hlt] at h
        rcases ih (some b) r h with ⟨hmem, hmin, hacc⟩
        have hrb : r.settleTime ≤ b.settleTime := hacc b rfl
        refine ⟨?_, ?_, ?_⟩
        · rcases hmem with hb | ht
          · exact Or.inl hb
          · exact Or.inr (List.mem_cons_of_mem _ ht)
        · intro d hd
          rcases List.mem_cons.mp hd with rfl | hd
          · exact le_trans hrb (le_of_not_lt hlt)
          · exact hmin d hd
        · intro b' hb'
          cases hb'
          exact hrb

/-- Claim C3 as amended: `_issue_certs` cancels none of the issuance
deferreds (a failure of one domain does not cancel the others), but it
gathers them without consuming errors: when no issuance fails, it fires
after every issuance has settled with the list of results; when some
issuance fails, it fires as soon as the earliest failure settles —
possibly before other issuances have settled — carrying only that first
failure (sync then logs this single failure; per-domain failures are
not individually accumulated). -/
theorem issue_certs_amended (ds : List Issuance) :
    issue_certs_cancelled ds = [] ∧
    ((∀ d ∈ ds, issuanceFailed d = false) →
      (gatherResults ds).result = .ok (ds.map issuanceValue) ∧
      ∀ d ∈ ds, d.settleTime ≤ (gatherResults ds).fireTime) ∧
    (∀ f, firstFailure ds = some f →
      f ∈ ds ∧ issuanceFailed f = true ∧
      (gatherResults ds).result = .error (issuanceError f) ∧
      (gatherResults ds).fireTime = f.settleTime ∧
      ∀ d ∈ ds, issuanceFailed d = true → f.settleTime ≤ d.settleTime) := by
  refine ⟨rfl, ?_, ?_⟩
  · intro hok
    have hfilter : ds.filter issuanceFailed = [] :=
      List.filter_eq_nil_iff.mpr (fun d hd => by rw [hok d hd]; exact Bool.false_ne_true)
    have hff : firstFailure ds = none := by
      unfold firstFailure
      rw [hfilter]
      rfl
    constructor
    · unfold gatherResults
      rw [hff]
    · intro d hd
      unfold gatherResults
      rw [hff]
      exact le_foldr_max _ _ (List.mem_map_of_mem _ hd)
  · intro f hf
    have hspec := firstFailure_fold_spec (ds.filter issuanceFailed) none f hf
    rcases hspec with ⟨hmem, hmin, _⟩
    have hmem' : f ∈ ds.filter issuanceFailed := by
      rcases hmem with h | h
      · cases h
      · exact h
    have hfd : f ∈ ds := (List.mem_filter.mp hmem').1
    have hffail : issuanceFailed f = true := (List.mem_filter.mp hmem').2
    refine ⟨hfd, hffail, ?_, ?_, ?_⟩
    · unfold gatherResults
      rw [hf]
    · unfold gatherResults
      rw [hf]
    · intro d hd hdf
      exact hmin d (List.mem_filter.mpr ⟨hd, hdf⟩)

/-- Witness for the amended C3 theorem at concrete inputs: an
all-success pair fires with both certificates, and a lone failing
issuance fires at its settle time. -/
theorem issue_certs_amended_witness :
    (gatherResults
        [{ domain := "x.org", settleTime := 4, outcome := .ok "cert-x" }]).result =
      .ok ["cert-x"] ∧
    (gatherResults
        [{ domain := "y.org", settleTime := 7, outcome := .error "boom" }]).fireTime = 7 := by
  constructor
  · exact ((issue_certs_amended
      [{ domain := "x.org", settleTime := 4, outcome := .ok "cert-x" }]).2.1
      (by intro d hd; fin_cases hd; rfl)).1
  · exact ((issue_certs_amended
      [{ domain := "y.org", settleTime := 7, outcome := .error "boom" }]).2.2
      { domain := "y.org", settleTime := 7, outcome := .error "boom" }
      (by decide)).2.2.2.1

/-! ## Vault client (`marathon_acme/clients/vault.py`) -/

/-- A PEM object as `marathon_acme.vault_store` distinguishes them: a
private key, or a certificate whose `BasicConstraints.ca` flag is
`ca` (`_is_ca`); `text` is its `as_text()` serialization. -/
inductive PemObject where
  | key (text : String)
  | cert (ca : Bool) (text : String)
deriving Repr, DecidableEq

/-- `isinstance(pem_object, pem.Key)`. -/
def pemIsKey : PemObject → Bool
  | .key _ => true
  | .cert _ _ => false

/-- `_is_ca` (only ever applied to certificates). -/
def pemIsCa : PemObject → Bool
  | .key _ => false
  | .cert ca _ => ca

/-- `as_text()`. -/
def pemText : PemObject → String
  | .key t => t
  | .cert _ t => t

/-- The `{privkey, cert, chain}` value stored at
`certificates/<name>`. -/
structure CertData where
  privkey : String
  cert : String
  chain : String
deriving Repr, DecidableEq

/-- The JSON envelope of a successful KV v2 read:
`response['data']['data']` is `data` and
`response['data']['metadata']['version']` is `version`. -/
structure KvReadBody (α : Type) where
  data : α
  version : Nat
deriving Repr, DecidableEq

/-- A raw Vault HTTP response as `_handle_response` sees it: the status
code, whether the `Content-Type` header is `application/json`, the
`errors` field of the JSON body (when present), and the parsed body
used on success. -/
structure VaultResponse (α : Type) where
  code : Nat
  contentTypeJson : Bool
  errors : Option (List String)
  body : KvReadBody α
deriving Repr, DecidableEq

/-- The error raised by `_handle_error`: a plain `VaultError` or the
`CasError` subclass, both carrying the response's `errors` list. -/
inductive VaultErr where
  | vaultError (errors : Option (List String))
  | casError (errors : Option (List String))
deriving Repr, DecidableEq

/-- The `errors` local of `_handle_error`: the body's `errors` field
when the response's `Content-Type` is JSON, else `None`. -/
def vault_response_errors {α : Type} (r : VaultResponse α) : Option (List String) :=
  if r.contentTypeJson then r.errors else none

/-- Embedding of `VaultClient._handle_response`/`_handle_error`: 4xx/5xx
responses go to error handling, where a 404 with an empty JSON `errors`
list is normalized to `None` (absent); with `check_cas`, a 400 whose
first error message mentions check-and-set raises `CasError`; any other
4xx/5xx raises `VaultError`. Non-error responses return the JSON
body. -/
def vault_handle_response {α : Type} (checkCas : Bool) (r : VaultResponse α) :
    Except VaultErr (Option (KvReadBody α)) :=
  if 400 ≤ r.code ∧ r.code < 600 then
    if r.code = 404 ∧ vault_response_errors r = some [] then .ok none
    else if checkCas && r.code == 400 &&
        (match vault_response_errors r with
         | some (e :: _) => decide ("check-and-set".toList <:+: e.toList)
         | _ => false) then .error (.casError (vault_response_errors r))
    else .error (.vaultError (vault_response_errors r))
  else .ok (some r.body)

/-! ## Vault certificate store (`marathon_acme/vault_store.py`) -/

/-- The error surfaced by `VaultKvCertificateStore.get`: the `KeyError`
raised for an absent entry, or a propagated Vault error. -/
inductive StoreGetError where
  | keyError (name : String)
  | vaultFailure (e : VaultErr)
deriving Repr, DecidableEq

/-- Embedding of `_cert_data_to_pem_objects`: `pem.parse` each of the
three PEM strings and concatenate (`pemParse` abstracts `pem.parse`). -/
def cert_data_to_pem_objects (pemParse : String → List PemObject)
    (cd : CertData) : List PemObject :=
  pemParse cd.privkey ++ pemParse cd.cert ++ pemParse cd.chain

/-- Embedding of `VaultKvCertificateStore.get`: read
`certificates/<name>` (here represented by the backend's raw response),
raise `KeyError(name)` when the normalized response is `None`, else
parse the stored data into PEM objects. -/
def vault_store_get (pemParse : String → List PemObject) (name : String)
    (r : VaultResponse CertData) : Except StoreGetError (List PemObject) :=
  match vault_handle_response false r with
  | .error e => .error (.vaultFailure e)
  | .ok none => .error (.keyError name)
  | .ok (some body) => .ok (cert_data_to_pem_objects pemParse body.data)

/-- Embedding of `sort_pem_objects`: partition into keys, non-CA
certificates and CA certificates; the destructuring
`[key], [cert] = keys, certs` raises `ValueError` unless there is
exactly one key and exactly one non-CA certificate. -/
def sort_pem_objects (pems : List PemObject) :
    Except String (PemObject × PemObject × List PemObject) :=
  match pems.filter pemIsKey, pems.filter (fun p => !pemIsKey p && !pemIsCa p) with
  | [k], [c] => .ok (k, c, pems.filter (fun p => !pemIsKey p && pemIsCa p))
  | _, _ => .error "ValueError: not enough values to unpack"

/-- Embedding of `_cert_data_from_pem_objects`: the private key and leaf
certificate texts, and the chain as the concatenation of the CA
certificate texts. -/
def cert_data_from_pem_objects (k c : PemObject) (caCerts : List PemObject) :
    CertData :=
  { privkey := pemText k, cert := pemText c,
    chain := String.join (caCerts.map pemText) }

/-- The write to `certificates/<name>` attempted by
`VaultKvCertificateStore.store`: `sort_pem_objects` runs first, so its
`ValueError` aborts the call before any Vault request is made. -/
def vault_store_cert_write (name : String) (pems : List PemObject) :
    Except String (String × CertData) :=
  match sort_pem_objects pems with
  | .error e => .error e
  | .ok (k, c, caCerts) =>
    .ok ("certificates/" ++ name, cert_data_from_pem_objects k c caCerts)

/-- The list of backend writes `store` performs up to and including the
certificate write: empty when the unpacking fails (the live-mapping
write that follows is modelled by `update_live` below). -/
def vault_store_writes (name : String) (pems : List PemObject) :
    List (String × CertData) :=
  match vault_store_cert_write name pems with
  | .error _ => []
  | .ok w => [w]

/-- A value of the live mapping, as `_live_value` builds it (the
`json.dumps`/`json.loads` round-trip is the identity here). -/
structure LiveValue where
  version : Nat
  fingerprint : String
  dns_names : List String
deriving Repr, DecidableEq

/-- `live.get(server_name)` on the association-list model of the live
mapping: the value of the first binding of `name`, if any. -/
def liveLookup (live : List (String × LiveValue)) (name : String) :
    Option LiveValue :=
  match live with
  | [] => none
  | (k, v) :: rest => if k = name then some v else liveLookup rest name

/-- `live[server_name] = value`: replace the first binding of `name`,
or append when absent (Python dict assignment). -/
def liveInsert (live : List (String × LiveValue)) (name : String)
    (v : LiveValue) : List (String × LiveValue) :=
  match live with
  | [] => [(name, v)]
  | (k, w) :: rest =>
    if k = name then (k, v) :: rest else (k, w) :: liveInsert rest name v

/-- The certificate version recorded in the live entry for `name`, `0`
when the entry is absent — `existing_cert_version` in `_update_live`. -/
def existing_cert_version (live : List (String × LiveValue))
    (name : String) : Nat :=
  match liveLookup live name with
  | some v => v.version
  | none => 0

/-- What `_read_live_data_and_version` returns on one read of `live`:
the mapping and its backend version (`{}` and `0` when absent). -/
structure LiveReadState where
  data : List (String × LiveValue)
  version : Nat
deriving Repr, DecidableEq

/-- The backend's answer to one `create_or_update_kv2('live', …,
cas=…)` attempt. -/
inductive WriteOutcome where
  | success
  | casMismatch
  | otherError (e : String)
deriving Repr, DecidableEq

/-- One cycle of `_update_live` against a concurrently-changing backend:
the live mapping as read at the start of the cycle and the outcome of
the CAS write attempted from it. -/
structure UpdateIteration where
  read : LiveReadState
  write : WriteOutcome
deriving Repr, DecidableEq

/-- How a run of `_update_live` ends. -/
inductive UpdateResult where
  | wrote (live : List (String × LiveValue)) (cas : Nat)
  | skipped (existing newVersion : Nat)
  | failed (e : String)
  | exhausted
deriving Repr, DecidableEq

/-- Embedding of `VaultKvCertificateStore._update_live` over a trace of
read/write interactions: read the live mapping; when the recorded
version for `name` is below the new value's version, PUT the updated
mapping with `cas` equal to the version just read — a CAS mismatch
restarts the whole cycle (next trace entry = fresh read), any other
write error propagates; when the recorded version is not below the new
one, stop without writing. `exhausted` stands for a trace that ends
while the code would still be retrying. -/
def update_live (newLive : LiveValue) (name : String) :
    List UpdateIteration → UpdateResult
  | [] => .exhausted
  | it :: rest =>
    if existing_cert_version it.read.data name < newLive.version then
      match it.write with
      | .success => .wrote (liveInsert it.read.data name newLive) it.read.version
      | .casMismatch => update_live newLive name rest
      | .otherError e => .failed e
    else .skipped (existing_cert_version it.read.data name) newLive.version

/-- The effective transition a successful `store` call applies to the
live mapping it replaced (the CAS guarantees that mapping is the one
that was read): write-if-strictly-newer. -/
def live_store_step (live : List (String × LiveValue))
    (w : String × LiveValue) : List (String × LiveValue) :=
  if existing_cert_version live w.1 < w.2.version then
    liveInsert live w.1 w.2
  else live

/-- Embedding of `as_dict`'s `_read_all_certs` over the live mapping
read from Vault: the referenced certificate entries are read strictly
in series (one deferred chained after the other), each result collected
under its name; the first failing read errbacks the whole chain, so
every later read and the final collection are skipped. `get` maps a
name to the result of `VaultKvCertificateStore.get` for it. -/
def read_all_certs (get : String → Except StoreGetError (List PemObject)) :
    List (String × LiveValue) →
      Except StoreGetError (List (String × List PemObject))
  | [] => .ok []
  | (name, _) :: rest =>
    match get name with
    | .error e => .error e
    | .ok pems =>
      match read_all_certs get rest with
      | .ok certs => .ok ((name, pems) :: certs)
      | .error e => .error e

/-- Embedding of `VaultKvCertificateStore.as_dict`: read the live
mapping (absent means empty) and then read every referenced certificate
entry in series. -/
def vault_as_dict (liveResp : VaultResponse (List (String × LiveValue)))
    (get : String → Except StoreGetError (List PemObject)) :
    Except StoreGetError (List (String × List PemObject)) :=
  match vault_handle_response false liveResp with
  | .error e => .error (.vaultFailure e)
  | .ok none => read_all_certs get []
  | .ok (some body) => read_all_certs get body.data

/-! ## Theorems for claim C9 -/

/-- A Vault read is normalized to `None` (absent) exactly for a 404
response whose JSON body carries an empty `errors` list. -/
theorem vault_handle_response_read_none_iff {α : Type} (r : VaultResponse α) :
    vault_handle_response false r = .ok none ↔
      (r.code = 404 ∧ vault_response_errors r = some []) := by
  unfold vault_handle_response
  by_cases h1 : 400 ≤ r.code ∧ r.code < 600
  · rw [if_pos h1]
    by_cases h2 : r.code = 404 ∧ vault_response_errors r = some []
    · rw [if_pos h2]
      exact ⟨fun _ => h2, fun _ => rfl⟩
    · rw [if_neg h2]
      simp only [Bool.false_and, Bool.false_eq_true, if_false]
      constructor
      · intro h; cases h
      · intro h; exact absurd h h2
  · rw [if_neg h1]
    constructor
    · intro h; cases h
    · rintro ⟨h404, _⟩
      exact absurd ⟨by omega, by omega⟩ h1

/-- Claim C9: `get(name)` raises `KeyError(name)` exactly when the Vault
read of `certificates/<name>` is a 404 with an empty `errors` list
(which the client normalizes to a `None` result rather than an error);
for every present entry, `get` returns the bundle parsed from the
stored `privkey`, `cert` and `chain` PEM strings. -/
theorem vault_store_get_spec (pemParse : String → List PemObject)
    (name : String) (r : VaultResponse CertData) :
    (vault_store_get pemParse name r = .error (.keyError name) ↔
      (r.code = 404 ∧ vault_response_errors r = some [])) ∧
    (∀ body, vault_handle_response false r = .ok (some body) →
      vault_store_get pemParse name r =
        .ok (pemParse body.data.privkey ++ pemParse body.data.cert ++
          pemParse body.data.chain)) := by
  constructor
  · rw [← vault_handle_response_read_none_iff (r := r)]
    unfold vault_store_get
    cases hvr : vault_handle_response false r with
    | error e => simp
    | ok o =>
      cases o with
      | none => simp
      | some body => simp
  · intro body hvr
    unfold vault_store_get
    rw [hvr]
    rfl

/-- Witness for the C9 theorem: a 404 with empty `errors` yields
`KeyError`, and a present entry yields the parsed bundle. -/
theorem vault_store_get_spec_witness :
    vault_store_get (fun s => [.cert false s]) "www.p16n.org"
        { code := 404, contentTypeJson := true, errors := some [],
          body := { data := { privkey := "", cert := "", chain := "" },
                    version := 0 } } =
      .error (.keyError "www.p16n.org") ∧
    vault_store_get (fun s => [.cert false s]) "www.p16n.org"
        { code := 200, contentTypeJson := true, errors := none,
          body := { data := { privkey := "K", cert := "C", chain := "CH" },
                    version := 2 } } =
      .ok [.cert false "K", .cert false "C", .cert false "CH"] := by
  constructor
  · exact (vault_store_get_spec (fun s => [.cert false s]) "www.p16n.org"
      { code := 404, contentTypeJson := true, errors := some [],
        body := { data := { privkey := "", cert := "", chain := "" },
                  version := 0 } }).1.mpr ⟨rfl, rfl⟩
  · exact (vault_store_get_spec (fun s => [.cert false s]) "www.p16n.org"
      { code := 200, contentTypeJson := true, errors := none,
        body := { data := { privkey := "K", cert := "C", chain := "CH" },
                  version := 2 } }).2
      { data := { privkey := "K", cert := "C", chain := "CH" }, version := 2 }
      (by decide)

/-! ## Theorems for claim C10 -/

/-- `sort_pem_objects` succeeds exactly on one key and one non-CA
certificate, returning them with the CA certificates. -/
theorem sort_pem_objects_ok_iff (pems : List PemObject)
    (k c : PemObject) (caCerts : List PemObject) :
    sort_pem_objects pems = .ok (k, c, caCerts) ↔
      pems.filter pemIsKey = [k] ∧
      pems.filter (fun p => !pemIsKey p && !pemIsCa p) = [c] ∧
      caCerts = pems.filter (fun p => !pemIsKey p && pemIsCa p) := by
  unfold sort_pem_objects
  cases hk : pems.filter pemIsKey with
  | nil => simp
  | cons k1 ks =>
    cases ks with
    | nil =>
      cases hc : pems.filter (fun p => !pemIsKey p && !pemIsCa p) with
      | nil => simp
      | cons c1 cs =>
        cases cs with
        | nil =>
          simp only [Except.ok.injEq, Prod.mk.injEq, List.cons.injEq,
            and_true, List.cons_ne_self]
          constructor
          · rintro ⟨rfl, rfl, rfl⟩
            exact ⟨rfl, rfl, rfl⟩
          · rintro ⟨⟨rfl, -⟩, ⟨rfl, -⟩, rfl⟩
            exact ⟨rfl, rfl, rfl⟩
        | cons c2 cs2 => simp
    | cons k2 ks2 => simp

/-- Claim C10: `store(name, pem_objects)` writes nothing to the backend
unless the PEM objects contain exactly one private key and exactly one
non-CA certificate — otherwise the unpacking in `sort_pem_objects`
raises before any Vault write is attempted; when the precondition
holds, the stored `chain` field is exactly the concatenation of the
CA-flagged certificates. -/
theorem vault_store_writes_spec (name : String) (pems : List PemObject)
    (k c : PemObject) :
    ((pems.filter pemIsKey = [k] ∧
        pems.filter (fun p => !pemIsKey p && !pemIsCa p) = [c]) →
      vault_store_writes name pems =
        [("certificates/" ++ name,
          { privkey := pemText k, cert := pemText c,
            chain := String.join
              ((pems.filter (fun p => !pemIsKey p && pemIsCa p)).map pemText) })]) ∧
    (¬((pems.filter pemIsKey).length = 1 ∧
        (pems.filter (fun p => !pemIsKey p && !pemIsCa p)).length = 1) →
      (∃ e, vault_store_cert_write name pems = .error e) ∧
      vault_store_writes name pems = []) := by
  constructor
  · rintro ⟨hk, hc⟩
    have hs : sort_pem_objects pems =
        .ok (k, c, pems.filter (fun p => !pemIsKey p && pemIsCa p)) :=
      (sort_pem_objects_ok_iff pems k c _).mpr ⟨hk, hc, rfl⟩
    unfold vault_store_writes vault_store_cert_write
    rw [hs]
    rfl
  · intro h
    have herr : ∃ e, sort_pem_objects pems = .error e := by
      cases hres : sort_pem_objects pems with
      | error e => exact ⟨e, rfl⟩
      | ok t =>
        obtain ⟨k', c', cas'⟩ := t
        have hiff := (sort_pem_objects_ok_iff pems k' c' cas').mp hres
        exact absurd ⟨by rw [hiff.1]; rfl, by rw [hiff.2.1]; rfl⟩ h
    rcases herr with ⟨e, he⟩
    refine ⟨⟨e, ?_⟩, ?_⟩
    · unfold vault_store_cert_write
      rw [he]
    · unfold vault_store_writes vault_store_cert_write
      rw [he]

/-- Witness for the C10 theorem: a proper bundle (one key, one leaf,
two CA certificates) produces the certificate write with the
concatenated chain; a key alone produces no write. -/
theorem vault_store_writes_spec_witness :
    vault_store_writes "example.org"
        [.key "KEY", .cert false "LEAF", .cert true "CA1", .cert true "CA2"] =
      [("certificates/example.org",
        { privkey := "KEY", cert := "LEAF", chain := "CA1CA2" })] ∧
    vault_store_writes "example.org" [.key "KEY"] = [] := by
  constructor
  · have h := (vault_store_writes_spec "example.org"
      [.key "KEY", .cert false "LEAF", .cert true "CA1", .cert true "CA2"]
      (.key "KEY") (.cert false "LEAF")).1 ⟨by decide, by decide⟩
    rw [h]
    rfl
  · exact ((vault_store_writes_spec "example.org" [.key "KEY"]
      (.key "KEY") (.key "KEY")).2 (by decide)).2

/-! ## Theorems for claim C7 -/

/-- The live mapping response used in the C7 counterexample: two live
entries, `a.org` and `b.org`. -/
def c7LiveData : List (String × LiveValue) :=
  [("a.org", { version := 1, fingerprint := "fp-a", dns_names := ["a.org"] }),
   ("b.org", { version := 1, fingerprint := "fp-b", dns_names := ["b.org"] })]

def c7LiveResp : VaultResponse (List (String × LiveValue)) :=
  { code := 200, contentTypeJson := true, errors := none,
    body := { data := c7LiveData, version := 3 } }

/-- The per-name read results used in the C7 counterexample: the
certificate entry for `a.org` is missing (`get` raises `KeyError`),
while `b.org` is perfectly readable. -/
def c7Get (name : String) : Except StoreGetError (List PemObject) :=
  if name = "a.org" then .error (.keyError "a.org")
  else .ok [.cert false "PEM-B"]

/-- Counterexample to claim C7: with a live mapping naming `a.org` and
`b.org` where only the certificate entry of `a.org` is missing,
`as_dict` does not tolerate the missing entry and return the remaining
readable certificate — the whole call fails with the `KeyError` (and no
warning path exists in `_read_all_certs`). -/
theorem vault_as_dict_counterexample :
    c7Get "b.org" = .ok [.cert false "PEM-B"] ∧
    vault_as_dict c7LiveResp c7Get = .error (.keyError "a.org") := by
  constructor <;> decide

/-- When every referenced certificate entry reads successfully, the
series of reads collects every entry under its name, in live-mapping
order. -/
theorem read_all_certs_all_ok
    (get : String → Except StoreGetError (List PemObject))
    (f : String → List PemObject) :
    ∀ l : List (String × LiveValue), (∀ p ∈ l, get p.1 = .ok (f p.1)) →
      read_all_certs get l = .ok (l.map (fun p => (p.1, f p.1))) := by
  intro l
  induction l with
  | nil => intro _; rfl
  | cons p rest ih =>
    intro h
    obtain ⟨name, v⟩ := p
    have hname : get name = .ok (f name) := h (name, v) (by simp)
    have hrest := ih (fun q hq => h q (List.mem_cons_of_mem _ hq))
    unfold read_all_certs
    rw [hname, hrest]
    rfl

/-- The first failing certificate read fails the whole series: every
read before it succeeded, and everything after it is skipped. -/
theorem read_all_certs_first_error
    (get : String → Except StoreGetError (List PemObject))
    (name : String) (v : LiveValue) (e : StoreGetError)
    (rest : List (String × LiveValue)) :
    ∀ pre : List (String × LiveValue),
      (∀ p ∈ pre, ∃ pems, get p.1 = .ok pems) → get name = .error e →
      read_all_certs get (pre ++ (name, v) :: rest) = .error e := by
  intro pre
  induction pre with
  | nil =>
    intro _ hname
    rw [List.nil_append]
    unfold read_all_certs
    rw [hname]
  | cons p t ih =>
    intro hpre hname
    obtain ⟨n0, v0⟩ := p
    rcases hpre (n0, v0) (by simp) with ⟨pems, hp⟩
    have hrec := ih (fun q hq => hpre q (List.mem_cons_of_mem _ hq)) hname
    rw [List.cons_append]
    unfold read_all_certs
    rw [hp, hrec]

/-- Claim C7 as amended: `as_dict` reads the live mapping and then reads
each referenced certificate entry strictly in series; when every entry
is readable it returns the full mapping (and an absent live mapping
yields the empty mapping), but a missing certificate entry for a live
entry is NOT tolerated: the first failing read — e.g. the `KeyError`
of a missing `certificates/<name>` entry — fails the entire `as_dict`
call, no warning is logged, and none of the other certificates are
returned. -/
theorem vault_as_dict_amended
    (liveResp : VaultResponse (List (String × LiveValue)))
    (get : String → Except StoreGetError (List PemObject))
    (body : KvReadBody (List (String × LiveValue))) :
    (vault_handle_response false liveResp = .ok none →
      vault_as_dict liveResp get = .ok []) ∧
    (vault_handle_response false liveResp = .ok (some body) →
      (∀ f : String → List PemObject,
        (∀ p ∈ body.data, get p.1 = .ok (f p.1)) →
        vault_as_dict liveResp get =
          .ok (body.data.map (fun p => (p.1, f p.1)))) ∧
      (∀ pre name v rest e, body.data = pre ++ (name, v) :: rest →
        (∀ p ∈ pre, ∃ pems, get p.1 = .ok pems) → get name = .error e →
        vault_as_dict liveResp get = .error e)) := by
  constructor
  · intro h
    unfold vault_as_dict
    rw [h]
    rfl
  · intro h
    constructor
    · intro f hf
      unfold vault_as_dict
      rw [h]
      exact read_all_certs_all_ok get f body.data hf
    · intro pre name v rest e hsplit hpre hname
      unfold vault_as_dict
      rw [h]
      show read_all_certs get body.data = .error e
      rw [hsplit]
      exact read_all_certs_first_error get name v e rest pre hpre hname

/-- Witness for the amended C7 theorem: an all-readable live mapping
with one entry returns that entry, and an absent live mapping returns
the empty mapping. -/
def c7OkLiveData : List (String × LiveValue) :=
  [("ok.org", { version := 2, fingerprint := "fp", dns_names := ["ok.org"] })]

def c7OkResp : VaultResponse (List (String × LiveValue)) :=
  { code := 200, contentTypeJson := true, errors := none,
    body := { data := c7OkLiveData, version := 1 } }

def c7AbsentResp : VaultResponse (List (String × LiveValue)) :=
  { code := 404, contentTypeJson := true, errors := some [],
    body := { data := [], version := 0 } }

def c7OkGet : String → Except StoreGetError (List PemObject) :=
  fun _ => .ok [.cert false "PEM-OK"]

theorem vault_as_dict_amended_witness :
    vault_as_dict c7OkResp c7OkGet = .ok [("ok.org", [.cert false "PEM-OK"])] ∧
    vault_as_dict c7AbsentResp c7OkGet = .ok [] := by
  constructor
  · have h := ((vault_as_dict_amended c7OkResp c7OkGet
      { data := c7OkLiveData, version := 1 }).2 (by decide)).1
      (fun _ => [.cert false "PEM-OK"]) (fun p _ => rfl)
    rw [h]
    rfl
  · exact (vault_as_dict_amended c7AbsentResp c7OkGet
      { data := [], version := 0 }).1 (by decide)

/-! ## Theorems for claim C1 -/

/-- After `live[name] = v`, the entry for `name` holds `v`. -/
theorem liveLookup_liveInsert_self (live : List (String × LiveValue))
    (name : String) (v : LiveValue) :
    liveLookup (liveInsert live name v) name = some v := by
  induction live with
  | nil => simp [liveInsert, liveLookup]
  | cons p rest ih =>
    obtain ⟨k, w⟩ := p
    by_cases hk : k = name
    · simp [liveInsert, hk, liveLookup]
    · simp only [liveInsert, hk, if_false, liveLookup]
      exact ih

/-- After `live[name] = v`, every other entry is unchanged. -/
theorem liveLookup_liveInsert_ne (live : List (String × LiveValue))
    (name m : String) (v : LiveValue) (hm : m ≠ name) :
    liveLookup (liveInsert live name v) m = liveLookup live m := by
  induction live with
  | nil =>
    simp only [liveInsert, liveLookup]
    rw [if_neg (fun h => hm h.symm)]
  | cons p rest ih =>
    obtain ⟨k, w⟩ := p
    by_cases hk : k = name
    · simp only [liveInsert, hk, if_true, liveLookup]
      rw [if_neg (fun h : name = m => hm h.symm), if_neg (fun h : name = m => hm h.symm)]
    · simp only [liveInsert, hk, if_false, liveLookup]
      by_cases hkm : k = m
      · rw [if_pos hkm, if_pos hkm]
      · rw [if_neg hkm, if_neg hkm]
        exact ih

/-- The recorded version for `name` right after `live[name] = v`. -/
theorem existing_cert_version_liveInsert_self (live : List (String × LiveValue))
    (name : String) (v : LiveValue) :
    existing_cert_version (liveInsert live name v) name = v.version := by
  unfold existing_cert_version
  rw [liveLookup_liveInsert_self]

/-- The recorded version of any other name is untouched by
`live[name] = v`. -/
theorem existing_cert_version_liveInsert_ne (live : List (String × LiveValue))
    (name m : String) (v : LiveValue) (hm : m ≠ name) :
    existing_cert_version (liveInsert live name v) m =
      existing_cert_version live m := by
  unfold existing_cert_version
  rw [liveLookup_liveInsert_ne live name m v hm]

/-- One write-if-newer step never decreases any recorded version. -/
theorem live_store_step_mono (live : List (String × LiveValue))
    (w : String × LiveValue) (m : String) :
    existing_cert_version live m ≤
      existing_cert_version (live_store_step live w) m := by
  unfold live_store_step
  split_ifs with h
  · by_cases hm : m = w.1
    · subst hm
      rw [existing_cert_version_liveInsert_self]
      exact le_of_lt h
    · rw [existing_cert_version_liveInsert_ne _ _ _ _ hm]
  · exact le_refl _

/-- Folding write-if-newer steps never decreases any recorded
version. -/
theorem live_store_fold_mono (steps : List (String × LiveValue)) :
    ∀ (start : List (String × LiveValue)) (m : String),
      existing_cert_version start m ≤
        existing_cert_version (steps.foldl live_store_step start) m := by
  induction steps with
  | nil => intro start m; exact le_refl _
  | cons w t ih =>
    intro start m
    exact le_trans (live_store_step_mono start w m) (ih (live_store_step start w) m)

/-- The one-cycle unfolding of `update_live`. -/
theorem update_live_cons (newLive : LiveValue) (name : String)
    (it : UpdateIteration) (rest : List UpdateIteration) :
    update_live newLive name (it :: rest) =
      if existing_cert_version it.read.data name < newLive.version then
        match it.write with
        | .success => .wrote (liveInsert it.read.data name newLive) it.read.version
        | .casMismatch => update_live newLive name rest
        | .otherError e => .failed e
      else .skipped (existing_cert_version it.read.data name) newLive.version := rfl

/-- Claim C1: in `_update_live`, after the certificate entry is written
at version `V_new` (= `newLive.version`), the live mapping is written
only from a read state whose recorded version for `name` (0 when
absent) is strictly below `V_new`, with `cas` equal to the version of
that read — and the write sets the entry for `name` to `V_new` while
leaving every other recorded version unchanged; when the recorded
version is `≥ V_new` the run stops without writing; a CAS mismatch
restarts the cycle from a fresh read of the live mapping; any other
write error propagates. Consequently (write-if-newer under CAS), the
version recorded in the live entry of any name never decreases across
store calls. -/
theorem update_live_spec (newLive : LiveValue) (name : String)
    (trace : List UpdateIteration) :
    (∀ live cas, update_live newLive name trace = .wrote live cas →
      ∃ it ∈ trace, it.write = .success ∧
        existing_cert_version it.read.data name < newLive.version ∧
        live = liveInsert it.read.data name newLive ∧
        cas = it.read.version ∧
        existing_cert_version live name = newLive.version ∧
        ∀ m, existing_cert_version it.read.data m ≤ existing_cert_version live m) ∧
    (∀ ex nv, update_live newLive name trace = .skipped ex nv →
      nv = newLive.version ∧ nv ≤ ex) ∧
    (∀ it rest, existing_cert_version it.read.data name < newLive.version →
      it.write = .casMismatch →
      update_live newLive name (it :: rest) = update_live newLive name rest) ∧
    (∀ it rest e, existing_cert_version it.read.data name < newLive.version →
      it.write = .otherError e →
      update_live newLive name (it :: rest) = .failed e) ∧
    (∀ (start : List (String × LiveValue)) (steps : List (String × LiveValue))
        (m : String),
      existing_cert_version start m ≤
        existing_cert_version (steps.foldl live_store_step start) m) := by
  refine ⟨?_, ?_, ?_, ?_, fun start steps m => live_store_fold_mono steps start m⟩
  · induction trace with
    | nil =>
      intro live cas h
      simp [update_live] at h
    | cons it rest ih =>
      intro live cas h
      unfold update_live at h
      by_cases hlt : existing_cert_version it.read.data name < newLive.version
      · rw [if_pos hlt] at h
        cases hw : it.write with
        | success =>
          rw [hw] at h
          injection h with h1 h2
          refine ⟨it, List.mem_cons_self _ _, hw, hlt, h1.symm, h2.symm, ?_, ?_⟩
          · rw [← h1, existing_cert_version_liveInsert_self]
          · intro m
            rw [← h1]
            by_cases hm : m = name
            · subst hm
              rw [existing_cert_version_liveInsert_self]
              exact le_of_lt hlt
            · rw [existing_cert_version_liveInsert_ne _ _ _ _ hm]
        | casMismatch =>
          rw [hw] at h
          rcases ih live cas h with ⟨it', hit', rest'⟩
          exact ⟨it', List.mem_cons_of_mem _ hit', rest'⟩
        | otherError e =>
          rw [hw] at h
          cases h
      · rw [if_neg hlt] at h
        cases h
  · induction trace with
    | nil =>
      intro ex nv h
      simp [update_live] at h
    | cons it rest ih =>
      intro ex nv h
      unfold update_live at h
      by_cases hlt : existing_cert_version it.read.data name < newLive.version
      · rw [if_pos hlt] at h
        cases hw : it.write with
        | success => rw [hw] at h; cases h
        | casMismatch => rw [hw] at h; exact ih ex nv h
        | otherError e => rw [hw] at h; cases h
      · rw [if_neg hlt] at h
        injection h with h1 h2
        refine ⟨h2.symm, ?_⟩
        rw [← h1, ← h2]
        exact le_of_not_lt hlt
  · intro it rest hlt hw
    rw [update_live_cons, if_pos hlt, hw]
  · intro it rest e hlt hw
    rw [update_live_cons, if_pos hlt, hw]

/-- The trace used to witness the C1 theorem: the spec's CAS-retry
scenario — first cycle reads an empty live mapping (version 0) and hits
a CAS mismatch because a concurrent writer advanced the mapping; the
second cycle re-reads (version 1, now containing another writer's
entry) and succeeds. -/
def c1OtherEntry : String × LiveValue :=
  ("other.org", { version := 5, fingerprint := "fp-o", dns_names := ["other.org"] })

def c1Trace : List UpdateIteration :=
  [{ read := { data := [], version := 0 }, write := .casMismatch },
   { read := { data := [c1OtherEntry], version := 1 }, write := .success }]

def c1NewLive : LiveValue :=
  { version := 1, fingerprint := "fp-d", dns_names := ["d.example.org"] }

def c1Written : List (String × LiveValue) :=
  [c1OtherEntry, ("d.example.org", c1NewLive)]

/-- Witness for the C1 theorem: on the concrete CAS-retry trace the run
writes the updated mapping with `cas = 1`, and the theorem's write
characterization holds of it. -/
theorem update_live_spec_witness :
    update_live c1NewLive "d.example.org" c1Trace = .wrote c1Written 1 ∧
    ∃ it ∈ c1Trace, it.write = .success ∧
      existing_cert_version it.read.data "d.example.org" < c1NewLive.version ∧
      c1Written = liveInsert it.read.data "d.example.org" c1NewLive ∧
      (1 : Nat) = it.read.version ∧
      existing_cert_version c1Written "d.example.org" = c1NewLive.version ∧
      ∀ m, existing_cert_version it.read.data m ≤
        existing_cert_version c1Written m :=
  have h : update_live c1NewLive "d.example.org" c1Trace = .wrote c1Written 1 := by
    decide
  ⟨h, (update_live_spec c1NewLive "d.example.org" c1Trace).1 c1Written 1 h⟩
